import Mathlib

/-!
The package go-query: `Recordset.Query` and `Recordset.QueryAsMap`.

A shallow embedding of `query.go`.  The database cursor (`*sql.Rows`) is an
external collaborator; it is modelled as data: its two metadata answers, the
rows it still has to yield, and its deferred iteration error.  What the driver
stores in a decode target is part of the cursor too: every cell carries the
outcome of decoding it into each kind of target the program allocates.
-/

namespace GoQuery

/-! ## Dynamically typed values -/

/-- Go `time.Time`, carried without interpretation; the zero value is `⟨0, 0⟩`. -/
structure Time where
  sec : Int
  nsec : Nat
deriving DecidableEq, Repr

/-- The dynamic values an `interface{}` entry of a result can hold. `float64` is
carried by its bit pattern (`0` is `0.0`); `ptr v` is a `*interface{}` whose
pointee holds `v`. -/
inductive Value where
  | nil
  | str (s : String)
  | bool (b : Bool)
  | int64 (n : Int)
  | float64 (bits : Nat)
  | time (t : Time)
  | bytes (b : List Nat)
  | ptr (pointee : Value)
deriving DecidableEq, Repr

/-- The `sql.Null*` structs: a payload and the `Valid` flag. -/
structure Null (α : Type) where
  val : α
  Valid : Bool
deriving DecidableEq, Repr

/-- A decode target, as allocated by `new(sql.NullString)`, ..., `new(interface{})`. -/
inductive Target where
  | nullString (v : Null String)
  | nullBool (v : Null Bool)
  | nullInt64 (v : Null Int)
  | nullFloat64 (v : Null Nat)
  | nullTime (v : Null Time)
  | iface (v : Value)
deriving DecidableEq, Repr

/-! ## The cursor -/

/-- One cell of the current row: what `Scan` stores when the cell is decoded into
a target of each kind, or the scan error. -/
structure Cell where
  scanString : Except String (Null String)
  scanBool : Except String (Null Bool)
  scanInt64 : Except String (Null Int)
  scanFloat64 : Except String (Null Nat)
  scanTime : Except String (Null Time)
  scanAny : Except String Value

/-- The cursor `*sql.Rows`: the answers of `Columns()` and of `ColumnTypes()`
(each column type given by its `DatabaseTypeName()`), the rows `Next()` still
yields, and the error `Err()` reports once `Next()` has returned false. -/
structure Rows where
  columns : Except String (List String)
  columnTypes : Except String (List String)
  pending : List (List Cell)
  err : Option String

/-- The type `Recordset`; `Rows = none` is the nil cursor. -/
structure Recordset where
  Rows : Option Rows

/-- The function `NewRecordset`. -/
def NewRecordset (rows : Option Rows) : Recordset := ⟨rows⟩

/-- Calls made on the cursor, in the order they are made. -/
inductive Op where
  | columns
  | columnTypes
  | next
  | scan
  | err
deriving DecidableEq, Repr

/-- What a call returns: the Go pair `(rows, err)` (a nil slice is `none`), or a
run-time panic. -/
inductive Result (α : Type) where
  | ret (rows : Option (List α)) (err : Option String)
  | panic (msg : String)
deriving DecidableEq, Repr

/-- Go `len` of a possibly nil slice. -/
def sliceLen {α : Type} : Option (List α) → Nat
  | none => 0
  | some l => l.length

/-- The elements of a possibly nil slice. -/
def sliceList {α : Type} : Option (List α) → List α
  | none => []
  | some l => l

/-- Go `append(s, x)` on a possibly nil slice. -/
def sliceAppend {α : Type} (s : Option (List α)) (x : α) : Option (List α) :=
  some (sliceList s ++ [x])

/-- Decoding a cell into a target: the target keeps its type, its content is
replaced by what the driver decodes. -/
def Cell.scanInto (c : Cell) : Target → Except String Target
  | .nullString _ => c.scanString.map Target.nullString
  | .nullBool _ => c.scanBool.map Target.nullBool
  | .nullInt64 _ => c.scanInt64.map Target.nullInt64
  | .nullFloat64 _ => c.scanFloat64.map Target.nullFloat64
  | .nullTime _ => c.scanTime.map Target.nullTime
  | .iface _ => c.scanAny.map Target.iface

/-- Decoding the cells into the destinations one by one, in column order, stopping
at the first failure. -/
def scanCells {τ : Type} (convertAssign : Cell → τ → Except String τ) :
    List Cell → List τ → Except String (List τ)
  | c :: cs, d :: ds =>
    match convertAssign c d with
    | .error e => .error e
    | .ok t =>
      match scanCells convertAssign cs ds with
      | .error e => .error e
      | .ok ts => .ok (t :: ts)
  | _, _ => .ok []

/-- The call `Rows.Scan(dest...)` on the current row: it refuses a destination count
other than the row's number of cells, then decodes cell by cell. -/
def Rows.Scan {τ : Type} (convertAssign : Cell → τ → Except String τ)
    (row : List Cell) (dest : List τ) : Except String (List τ) :=
  if dest.length ≠ row.length then
    .error ("sql: expected " ++ toString row.length ++
      " destination arguments in Scan, not " ++ toString dest.length)
  else scanCells convertAssign row dest

/-! ## Query -/

/-- The switch on `colTypes[i].DatabaseTypeName()` (lines 42-55): the freshly
allocated, zeroed target for a declared type name. -/
def newTarget (typeName : String) : Target :=
  match typeName with
  | "VARCHAR" | "TEXT" | "CHAR" | "UUID" => .nullString ⟨"", false⟩
  | "BOOL" => .nullBool ⟨false, false⟩
  | "INT" | "BIGINT" | "SMALLINT" => .nullInt64 ⟨0, false⟩
  | "FLOAT" | "DOUBLE" | "DECIMAL" => .nullFloat64 ⟨0, false⟩
  | "TIMESTAMP" | "DATETIME" | "DATE" => .nullTime ⟨⟨0, 0⟩, false⟩
  | _ => .iface .nil

/-- The loop `for i := range rowData` (lines 40-57) from index `i`, with `fuel`
iterations left: `none` when `colTypes[i]` is out of range. -/
def allocTargets (colTypes : List String) (i : Nat) : Nat → Option (List Target)
  | 0 => some []
  | fuel + 1 =>
    match colTypes[i]? with
    | none => none
    | some t =>
      match allocTargets colTypes (i + 1) fuel with
      | none => none
      | some ts => some (newTarget t :: ts)

/-- The type switch of lines 67-90 on one scanned target. -/
def extract : Target → Value
  | .nullString v => if v.Valid then .str v.val else .nil
  | .nullInt64 v => if v.Valid then .int64 v.val else .nil
  | .nullFloat64 v => if v.Valid then .float64 v.val else .nil
  | .nullBool v => if v.Valid then .bool v.val else .nil
  | .nullTime v => if v.Valid then .time v.val else .nil
  | .iface v => .ptr v

/-- How the body of the row loop ends for one row. -/
inductive RowStep (α : Type) where
  | ok (row : α)
  | scanError (e : String)
  | panic (msg : String)
deriving DecidableEq, Repr

/-- The body of the loop of `Query` (lines 37-91) for one row of a cursor with `n`
column names. -/
def queryRow (n : Nat) (colTypes : List String) (row : List Cell) : RowStep (List Value) :=
  match allocTargets colTypes 0 n with
  | none => .panic "runtime error: index out of range"
  | some rowPointers =>
    match Rows.Scan Cell.scanInto row rowPointers with
    | .error e => .scanError e
    | .ok scanned => .ok (scanned.map extract)

/-- The loop `for r.Rows.Next()` of `Query` and the check of `r.Rows.Err()` after it
(lines 36-101), with the calls made on the cursor. -/
def queryLoop (n : Nat) (colTypes : List String) (err : Option String) :
    List (List Cell) → List (List Value) → Result (List Value) × List Op
  | [], dataFrame =>
    match err with
    | some e => (.ret none (some ("error during row iteration: " ++ e)), [.next, .err])
    | none => (.ret (some dataFrame) none, [.next, .err])
  | row :: rest, dataFrame =>
    match queryRow n colTypes row with
    | .panic msg => (.panic msg, [.next])
    | .scanError e => (.ret none (some ("failed to scan row: " ++ e)), [.next, .scan])
    | .ok actualRow =>
      let r := queryLoop n colTypes err rest (dataFrame ++ [actualRow])
      (r.1, .next :: .scan :: r.2)

/-- The method `Recordset.Query`: its result and the calls it made on the cursor. -/
def Recordset.Query (r : Recordset) : Result (List Value) × List Op :=
  match r.Rows with
  | none => (.ret none (some "rows is nil"), [])
  | some rows =>
    match rows.columns with
    | .error e => (.ret none (some ("failed to get column names: " ++ e)), [.columns])
    | .ok columns =>
      match rows.columnTypes with
      | .error e =>
        (.ret none (some ("failed to get column types: " ++ e)), [.columns, .columnTypes])
      | .ok colTypes =>
        let res := queryLoop columns.length colTypes rows.err rows.pending []
        (res.1, .columns :: .columnTypes :: res.2)

/-! ## QueryAsMap -/

/-- Go `map[string]interface{}` as a finite list of entries with distinct keys. -/
abbrev GoMap := List (String × Value)

/-- The assignment `row[col] = v`. -/
def mapSet (m : GoMap) (col : String) (v : Value) : GoMap :=
  (col, v) :: m.filter (fun e => e.1 != col)

/-- The value stored under a key, if the key is present. -/
def mapGet (m : GoMap) (col : String) : Option Value :=
  List.lookup col m

/-- The loop `for i, col := range columns` (lines 130-134) over the shared targets. -/
def fillMap : List String → List Value → GoMap → GoMap
  | col :: cols, v :: vs, row => fillMap cols vs (if v ≠ .nil then mapSet row col v else row)
  | _, _, row => row

/-- The loop `for r.Rows.Next()` of `QueryAsMap` and the check of `r.Rows.Err()`
(lines 121-143); `rowData` is the one set of targets every row is decoded into. -/
def mapLoop (columns : List String) (err : Option String) :
    List (List Cell) → List Value → Option (List GoMap) → Result GoMap × List Op
  | [], _, result =>
    match err with
    | some e => (.ret none (some ("error iterating rows: " ++ e)), [.next, .err])
    | none => (.ret result none, [.next, .err])
  | row :: rest, rowData, result =>
    match Rows.Scan (fun c _ => c.scanAny) row rowData with
    | .error e => (.ret none (some ("failed to scan row: " ++ e)), [.next, .scan])
    | .ok rowData1 =>
      let r := mapLoop columns err rest rowData1 (sliceAppend result (fillMap columns rowData1 []))
      (r.1, .next :: .scan :: r.2)

/-- The method `Recordset.QueryAsMap`. It has no nil check: on a nil cursor the call
of `Columns()` dereferences nil. -/
def Recordset.QueryAsMap (r : Recordset) : Result GoMap × List Op :=
  match r.Rows with
  | none => (.panic "runtime error: invalid memory address or nil pointer dereference", [])
  | some rows =>
    match rows.columns with
    | .error e => (.ret none (some ("failed to get column names: " ++ e)), [.columns])
    | .ok columns =>
      let res := mapLoop columns rows.err rows.pending (List.replicate columns.length .nil) none
      (res.1, .columns :: res.2)

/-! ## Sample cursors -/

/-- A NULL cell: every nullable target reports not valid, the untyped target holds nil. -/
def Cell.null : Cell :=
  ⟨.ok ⟨"", false⟩, .ok ⟨false, false⟩, .ok ⟨0, false⟩, .ok ⟨0, false⟩, .ok ⟨⟨0, 0⟩, false⟩,
    .ok .nil⟩

/-- The bit pattern of the `float64` equal to the integer `n`, for `|n| < 2 ^ 53`. -/
def float64OfInt (n : Int) : Nat :=
  if n = 0 then 0
  else
    let a := n.natAbs
    let e := Nat.log2 a
    (if n < 0 then 2 ^ 63 else 0) + (e + 1023) * 2 ^ 52 + (a * 2 ^ (52 - e) - 2 ^ 52)

/-- A cell for which the driver yields the integer `n`, `|n| < 2 ^ 53`, as `database/sql`
converts it: any target but a time accepts it, a boolean only for 0 and 1. -/
def Cell.ofInt (n : Int) : Cell :=
  ⟨.ok ⟨toString n, true⟩,
    if n = 1 then .ok ⟨true, true⟩ else if n = 0 then .ok ⟨false, true⟩
    else .error ("sql/driver: couldn't convert " ++ toString n ++ " into type bool"),
    .ok ⟨n, true⟩, .ok ⟨float64OfInt n, true⟩,
    .error "unsupported Scan, storing driver.Value type int64 into type *time.Time",
    .ok (.int64 n)⟩

/-- A cell for which the driver yields the string `s`, for an `s` that spells no
number and no boolean: only string and untyped targets accept it. -/
def Cell.ofString (s : String) : Cell :=
  ⟨.ok ⟨s, true⟩, .error ("sql/driver: couldn't convert \"" ++ s ++ "\" into type bool"),
    .error ("converting driver.Value type string (\"" ++ s ++ "\") to a int64: invalid syntax"),
    .error ("converting driver.Value type string (\"" ++ s ++ "\") to a float64: invalid syntax"),
    .error "unsupported Scan, storing driver.Value type string into type *time.Time",
    .ok (.str s)⟩

/-- The scenario of the specification: three rows of ("id" BIGINT, "name" VARCHAR),
the name of the second row being NULL. -/
def people : Rows :=
  { columns := .ok ["id", "name"]
    columnTypes := .ok ["BIGINT", "VARCHAR"]
    pending := [[Cell.ofInt 1, Cell.ofString "Alice"], [Cell.ofInt 2, Cell.null],
      [Cell.ofInt 3, Cell.ofString "Carol"]]
    err := none }

/-- One column of a type name the switch does not list, one row. -/
def documents : Rows :=
  { columns := .ok ["doc"]
    columnTypes := .ok ["JSONB"]
    pending := [[Cell.ofString "abc"]]
    err := none }

/-- Two columns under one name, the second cell of the only row being NULL
(`SELECT 1 AS a, NULL AS a`). -/
def twice : Rows :=
  { columns := .ok ["a", "a"]
    columnTypes := .ok ["BIGINT", "BIGINT"]
    pending := [[Cell.ofInt 1, Cell.null]]
    err := none }

/-- A column declared BIGINT whose second row holds text (as a dynamically typed
store allows), on a connection that breaks at the end of the stream. -/
def broken : Rows :=
  { columns := .ok ["id"]
    columnTypes := .ok ["BIGINT"]
    pending := [[Cell.ofInt 1], [Cell.ofString "x"], [Cell.ofInt 3]]
    err := some "connection reset" }

/-- A cursor without rows. -/
def empty : Rows :=
  { columns := .ok ["id", "name"]
    columnTypes := .ok ["BIGINT", "VARCHAR"]
    pending := []
    err := none }

/-- A cursor reporting fewer column types than column names. -/
def ragged : Rows :=
  { columns := .ok ["id", "name"]
    columnTypes := .ok ["BIGINT"]
    pending := [[Cell.ofInt 1, Cell.ofString "Alice"]]
    err := none }

/-! ## Vocabulary of the properties -/

/-- The type names of the first case of the switch. -/
def stringNames : List String := ["VARCHAR", "TEXT", "CHAR", "UUID"]

/-- The type names of the third case of the switch. -/
def intNames : List String := ["INT", "BIGINT", "SMALLINT"]

/-- The type names of the fourth case of the switch. -/
def floatNames : List String := ["FLOAT", "DOUBLE", "DECIMAL"]

/-- The type names of the fifth case of the switch. -/
def timeNames : List String := ["TIMESTAMP", "DATETIME", "DATE"]

/-- Whether the loop body completed the row. -/
def RowStep.isOk {α : Type} : RowStep α → Bool
  | .ok _ => true
  | _ => false

/-- The decode `QueryAsMap` performs on a row of a cursor with `n` column names: into
`n` untyped targets. -/
def mapRow (n : Nat) (row : List Cell) : Except String (List Value) :=
  Rows.Scan (fun c _ => c.scanAny) row (List.replicate n Value.nil)

/-- In a run of `Query`, rows `1..N-1` are decoded and the decode of row `N` fails. -/
def Rows.queryScanFailsAt (c : Rows) (N : Nat) : Prop :=
  ∃ cols tys row e, c.columns = .ok cols ∧ c.columnTypes = .ok tys ∧
    (∀ r ∈ c.pending.take (N - 1), (queryRow cols.length tys r).isOk = true) ∧
    c.pending[N - 1]? = some row ∧ queryRow cols.length tys row = .scanError e

/-- In a run of `Query`, every row is decoded and the exhausted cursor then reports
an error. -/
def Rows.queryDeferredErr (c : Rows) : Prop :=
  ∃ cols tys e, c.columns = .ok cols ∧ c.columnTypes = .ok tys ∧
    (∀ r ∈ c.pending, (queryRow cols.length tys r).isOk = true) ∧ c.err = some e

/-- In a run of `QueryAsMap`, rows `1..N-1` are decoded and the decode of row `N`
fails. -/
def Rows.mapScanFailsAt (c : Rows) (N : Nat) : Prop :=
  ∃ cols row e, c.columns = .ok cols ∧
    (∀ r ∈ c.pending.take (N - 1), (mapRow cols.length r).isOk = true) ∧
    c.pending[N - 1]? = some row ∧ mapRow cols.length row = .error e

/-- In a run of `QueryAsMap`, every row is decoded and the exhausted cursor then
reports an error. -/
def Rows.mapDeferredErr (c : Rows) : Prop :=
  ∃ cols e, c.columns = .ok cols ∧
    (∀ r ∈ c.pending, (mapRow cols.length r).isOk = true) ∧ c.err = some e

/-! ## Decoding a row -/

theorem scanCells_ok {τ : Type} (f : Cell → τ → Except String τ) :
    ∀ (row : List Cell) (dest out : List τ), row.length = dest.length →
      scanCells f row dest = .ok out →
      out.length = row.length ∧
        ∀ (i : Nat) c d, row[i]? = some c → dest[i]? = some d →
          ∃ t, f c d = .ok t ∧ out[i]? = some t := by
  intro row
  induction row with
  | nil =>
    intro dest out _ h
    cases dest <;> simp [scanCells] at h <;> subst h <;> simp
  | cons c cs ih =>
    intro dest out hlen h
    cases dest with
    | nil => simp at hlen
    | cons d ds =>
      simp only [scanCells] at h
      cases hf : f c d with
      | error e => simp [hf] at h
      | ok t =>
        cases hr : scanCells f cs ds with
        | error e => simp [hf, hr] at h
        | ok ts =>
          simp [hf, hr] at h
          subst h
          have hl : cs.length = ds.length := by simpa using hlen
          obtain ⟨h1, h2⟩ := ih ds ts hl hr
          refine ⟨by simp [h1], ?_⟩
          intro i c1 d1 hc hd
          cases i with
          | zero =>
            simp at hc hd
            subst hc; subst hd
            refine ⟨t, hf, ?_⟩
            simp
          | succ j =>
            simp at hc hd
            obtain ⟨t1, ht1, ht2⟩ := h2 j c1 d1 hc hd
            refine ⟨t1, ht1, ?_⟩
            simpa using ht2

theorem Scan_ok {τ : Type} (f : Cell → τ → Except String τ) (row : List Cell)
    (dest out : List τ) (h : Rows.Scan f row dest = .ok out) :
    row.length = dest.length ∧ out.length = dest.length ∧
      ∀ (i : Nat) c d, row[i]? = some c → dest[i]? = some d →
        ∃ t, f c d = .ok t ∧ out[i]? = some t := by
  unfold Rows.Scan at h
  by_cases hl : dest.length = row.length
  · simp [hl] at h
    obtain ⟨h1, h2⟩ := scanCells_ok f row dest out hl.symm h
    exact ⟨hl.symm, by omega, h2⟩
  · simp [hl] at h

theorem scanCells_any_congr :
    ∀ (row : List Cell) (d1 d2 : List Value), d1.length = d2.length →
      scanCells (fun c _ => c.scanAny) row d1 = scanCells (fun c _ => c.scanAny) row d2 := by
  intro row
  induction row with
  | nil => intro d1 d2 _; cases d1 <;> cases d2 <;> simp [scanCells]
  | cons c cs ih =>
    intro d1 d2 h
    cases d1 with
    | nil =>
      cases d2 with
      | nil => rfl
      | cons _ _ => simp at h
    | cons a as =>
      cases d2 with
      | nil => simp at h
      | cons b bs =>
        have hl : as.length = bs.length := by simpa using h
        simp only [scanCells, ih as bs hl]

theorem Scan_any_congr (row : List Cell) (d1 d2 : List Value) (h : d1.length = d2.length) :
    Rows.Scan (fun c _ => c.scanAny) row d1 = Rows.Scan (fun c _ => c.scanAny) row d2 := by
  unfold Rows.Scan
  rw [h, scanCells_any_congr row d1 d2 h]

/-! ## Allocation of the targets -/

theorem allocTargets_ok (tys : List String) :
    ∀ (n i : Nat) (ts : List Target), allocTargets tys i n = some ts →
      ts.length = n ∧
        ∀ j, j < n → ∃ t, tys[i + j]? = some t ∧ ts[j]? = some (newTarget t) := by
  intro n
  induction n with
  | zero =>
    intro i ts h
    simp [allocTargets] at h
    subst h
    simp
  | succ n ih =>
    intro i ts h
    simp only [allocTargets] at h
    cases ht : tys[i]? with
    | none => simp [ht] at h
    | some t =>
      cases hr : allocTargets tys (i + 1) n with
      | none => simp [ht, hr] at h
      | some rest =>
        simp [ht, hr] at h
        subst h
        obtain ⟨h1, h2⟩ := ih (i + 1) rest hr
        refine ⟨by simp [h1], ?_⟩
        intro j hj
        cases j with
        | zero => exact ⟨t, by simpa using ht, by simp⟩
        | succ k =>
          obtain ⟨t1, ht1, ht2⟩ := h2 k (by omega)
          refine ⟨t1, ?_, by simpa using ht2⟩
          have : i + (k + 1) = i + 1 + k := by omega
          rw [this]
          exact ht1

theorem allocTargets_isSome (tys : List String) :
    ∀ (n i : Nat), i + n ≤ tys.length → ∃ ts, allocTargets tys i n = some ts := by
  intro n
  induction n with
  | zero => intro i _; exact ⟨[], rfl⟩
  | succ n ih =>
    intro i h
    obtain ⟨rest, hr⟩ := ih (i + 1) (by omega)
    have hi : i < tys.length := by omega
    refine ⟨newTarget tys[i] :: rest, ?_⟩
    simp [allocTargets, List.getElem?_eq_getElem hi, hr]

theorem allocTargets_none (tys : List String) :
    ∀ (n i : Nat), i ≤ tys.length → tys.length < i + n → allocTargets tys i n = none := by
  intro n
  induction n with
  | zero =>
    intro i h0 h
    omega
  | succ n ih =>
    intro i _ h
    simp only [allocTargets]
    cases ht : tys[i]? with
    | none => rfl
    | some t =>
      have hi : i < tys.length := by
        by_contra hc
        have : tys[i]? = none := List.getElem?_eq_none (by omega)
        simp [this] at ht
      have := ih (i + 1) (by omega) (by omega)
      simp [this]

/-! ## The row loop of Query -/

theorem queryRow_ok (n : Nat) (tys : List String) (row : List Cell) (o : List Value)
    (h : queryRow n tys row = .ok o) :
    o.length = n ∧ row.length = n ∧
      ∀ (i : Nat) c, row[i]? = some c →
        ∃ t tgt, tys[i]? = some t ∧ c.scanInto (newTarget t) = .ok tgt ∧
          o[i]? = some (extract tgt) := by
  unfold queryRow at h
  cases ha : allocTargets tys 0 n with
  | none => simp [ha] at h
  | some dest =>
    cases hs : Rows.Scan Cell.scanInto row dest with
    | error e => simp [ha, hs] at h
    | ok scanned =>
      simp [ha, hs] at h
      subst h
      obtain ⟨hl, hget⟩ := allocTargets_ok tys n 0 dest ha
      obtain ⟨h1, h2, h3⟩ := Scan_ok Cell.scanInto row dest scanned hs
      refine ⟨by simp [h2, hl], by omega, ?_⟩
      intro i c hc
      have hi : i < n := by
        have := (List.getElem?_eq_some.mp hc).1
        omega
      obtain ⟨t, ht1, ht2⟩ := hget i hi
      obtain ⟨tgt, hg1, hg2⟩ := h3 i c (newTarget t) hc ht2
      refine ⟨t, tgt, by simpa using ht1, hg1, ?_⟩
      simp [hg2]

theorem queryLoop_ok (n : Nat) (tys : List String) (err : Option String) :
    ∀ (rows : List (List Cell)) (acc : List (List Value)) (rs : Option (List (List Value))),
      (queryLoop n tys err rows acc).1 = .ret rs none →
      err = none ∧ ∃ news, rs = some (acc ++ news) ∧ news.length = rows.length ∧
        ∀ (k : Nat) row, rows[k]? = some row →
          ∃ o, news[k]? = some o ∧ queryRow n tys row = .ok o := by
  intro rows
  induction rows with
  | nil =>
    intro acc rs h
    cases err with
    | some e => simp [queryLoop] at h
    | none =>
      simp [queryLoop] at h
      exact ⟨rfl, [], by simp [h], rfl, by simp⟩
  | cons row rest ih =>
    intro acc rs h
    simp only [queryLoop] at h
    cases hq : queryRow n tys row with
    | panic msg => simp [hq] at h
    | scanError e => simp [hq] at h
    | ok actualRow =>
      simp only [hq] at h
      obtain ⟨he, news, h1, h2, h3⟩ := ih (acc ++ [actualRow]) rs h
      refine ⟨he, actualRow :: news, by simp [h1], by simp [h2], ?_⟩
      intro k r hk
      cases k with
      | zero =>
        simp at hk
        subst hk
        exact ⟨actualRow, by simp, hq⟩
      | succ j =>
        simp at hk
        obtain ⟨o, ho1, ho2⟩ := h3 j r hk
        refine ⟨o, ?_, ho2⟩
        simpa using ho1

theorem queryLoop_scanError (n : Nat) (tys : List String) (err : Option String) :
    ∀ (pre : List (List Cell)) (row : List Cell) (post : List (List Cell)) (e : String)
      (acc : List (List Value)),
      (∀ r ∈ pre, (queryRow n tys r).isOk = true) → queryRow n tys row = .scanError e →
      (queryLoop n tys err (pre ++ row :: post) acc).1 =
        .ret none (some ("failed to scan row: " ++ e)) := by
  intro pre
  induction pre with
  | nil =>
    intro row post e acc _ h
    simp [queryLoop, h]
  | cons p ps ih =>
    intro row post e acc hpre h
    have hp : (queryRow n tys p).isOk = true := hpre p (by simp)
    cases hq : queryRow n tys p with
    | panic msg => simp [hq, RowStep.isOk] at hp
    | scanError e1 => simp [hq, RowStep.isOk] at hp
    | ok actualRow =>
      simp only [List.cons_append, queryLoop, hq]
      exact ih row post e _ (fun r hr => hpre r (by simp [hr])) h

theorem queryLoop_err (n : Nat) (tys : List String) (e : String) :
    ∀ (rows : List (List Cell)) (acc : List (List Value)),
      (∀ r ∈ rows, (queryRow n tys r).isOk = true) →
      (queryLoop n tys (some e) rows acc).1 =
        .ret none (some ("error during row iteration: " ++ e)) := by
  intro rows
  induction rows with
  | nil => intro acc _; simp [queryLoop]
  | cons p ps ih =>
    intro acc hall
    have hp : (queryRow n tys p).isOk = true := hall p (by simp)
    cases hq : queryRow n tys p with
    | panic msg => simp [hq, RowStep.isOk] at hp
    | scanError e1 => simp [hq, RowStep.isOk] at hp
    | ok actualRow =>
      simp only [queryLoop, hq]
      exact ih _ (fun r hr => hall r (by simp [hr]))

theorem queryRow_no_panic (n : Nat) (tys : List String) (row : List Cell)
    (h : n ≤ tys.length) (msg : String) : queryRow n tys row ≠ .panic msg := by
  obtain ⟨ts, hts⟩ := allocTargets_isSome tys n 0 (by omega)
  unfold queryRow
  rw [hts]
  cases hs : Rows.Scan Cell.scanInto row ts <;> simp [hs]

theorem queryRow_panic (n : Nat) (tys : List String) (row : List Cell)
    (h : tys.length < n) : queryRow n tys row = .panic "runtime error: index out of range" := by
  unfold queryRow
  rw [allocTargets_none tys n 0 (by omega) (by omega)]

theorem queryLoop_no_panic (n : Nat) (tys : List String) (err : Option String)
    (h : n ≤ tys.length) :
    ∀ (rows : List (List Cell)) (acc : List (List Value)) (msg : String),
      (queryLoop n tys err rows acc).1 ≠ .panic msg := by
  intro rows
  induction rows with
  | nil =>
    intro acc msg
    cases err <;> simp [queryLoop]
  | cons p ps ih =>
    intro acc msg
    simp only [queryLoop]
    cases hq : queryRow n tys p with
    | panic m => exact absurd hq (queryRow_no_panic n tys p h m)
    | scanError e1 => simp
    | ok actualRow => exact ih _ msg

/-! ## The row loop of QueryAsMap -/

theorem mapRow_ok (n : Nat) (row : List Cell) (vals : List Value)
    (h : mapRow n row = .ok vals) :
    row.length = n ∧ vals.length = n ∧
      ∀ (i : Nat) c, row[i]? = some c → ∃ v, c.scanAny = .ok v ∧ vals[i]? = some v := by
  obtain ⟨h1, h2, h3⟩ := Scan_ok _ row _ vals h
  simp only [List.length_replicate] at h1 h2
  refine ⟨h1, h2, ?_⟩
  intro i c hc
  have hi : i < n := by
    have := (List.getElem?_eq_some.mp hc).1
    omega
  have hd : (List.replicate n Value.nil)[i]? = some Value.nil := by
    simp [List.getElem?_replicate, hi]
  exact h3 i c Value.nil hc hd

theorem mapRow_eq_Scan (n : Nat) (row : List Cell) (rowData : List Value)
    (h : rowData.length = n) :
    Rows.Scan (fun c _ => c.scanAny) row rowData = mapRow n row := by
  unfold mapRow
  exact Scan_any_congr row rowData _ (by simp [h])

theorem mapLoop_ok (cols : List String) (err : Option String) (n : Nat) :
    ∀ (rows : List (List Cell)) (rowData : List Value) (res rs : Option (List GoMap)),
      rowData.length = n → (mapLoop cols err rows rowData res).1 = .ret rs none →
      err = none ∧ ∃ news, sliceList rs = sliceList res ++ news ∧
        news.length = rows.length ∧
        ∀ (k : Nat) row, rows[k]? = some row →
          ∃ vals, mapRow n row = .ok vals ∧ news[k]? = some (fillMap cols vals []) := by
  intro rows
  induction rows with
  | nil =>
    intro rowData res rs _ h
    cases err with
    | some e => simp [mapLoop] at h
    | none =>
      simp [mapLoop] at h
      exact ⟨rfl, [], by simp [h], rfl, by simp⟩
  | cons row rest ih =>
    intro rowData res rs hn h
    simp only [mapLoop, mapRow_eq_Scan n row rowData hn] at h
    cases hq : mapRow n row with
    | error e => simp [hq] at h
    | ok vals =>
      simp only [hq] at h
      have hv : vals.length = n := (mapRow_ok n row vals hq).2.1
      obtain ⟨he, news, h1, h2, h3⟩ := ih vals _ rs hv h
      refine ⟨he, fillMap cols vals [] :: news, ?_, by simp [h2], ?_⟩
      · rw [h1]
        simp [sliceAppend, sliceList]
      · intro k r hk
        cases k with
        | zero =>
          simp at hk
          subst hk
          exact ⟨vals, hq, by simp⟩
        | succ j =>
          simp at hk
          obtain ⟨w, hw1, hw2⟩ := h3 j r hk
          refine ⟨w, hw1, ?_⟩
          simpa using hw2

theorem mapLoop_scanError (cols : List String) (err : Option String) (n : Nat) :
    ∀ (pre : List (List Cell)) (row : List Cell) (post : List (List Cell)) (e : String)
      (rowData : List Value) (res : Option (List GoMap)),
      rowData.length = n → (∀ r ∈ pre, (mapRow n r).isOk = true) → mapRow n row = .error e →
      (mapLoop cols err (pre ++ row :: post) rowData res).1 =
        .ret none (some ("failed to scan row: " ++ e)) := by
  intro pre
  induction pre with
  | nil =>
    intro row post e rowData res hn _ h
    simp [mapLoop, mapRow_eq_Scan n row rowData hn, h]
  | cons p ps ih =>
    intro row post e rowData res hn hpre h
    have hp : (mapRow n p).isOk = true := hpre p (by simp)
    cases hq : mapRow n p with
    | error e1 => simp [hq, Except.isOk, Except.toBool] at hp
    | ok vals =>
      simp only [List.cons_append, mapLoop, mapRow_eq_Scan n p rowData hn, hq]
      exact ih row post e vals _ (mapRow_ok n p vals hq).2.1
        (fun r hr => hpre r (by simp [hr])) h

theorem mapLoop_err (cols : List String) (e : String) (n : Nat) :
    ∀ (rows : List (List Cell)) (rowData : List Value) (res : Option (List GoMap)),
      rowData.length = n → (∀ r ∈ rows, (mapRow n r).isOk = true) →
      (mapLoop cols (some e) rows rowData res).1 =
        .ret none (some ("error iterating rows: " ++ e)) := by
  intro rows
  induction rows with
  | nil => intro rowData res _ _; simp [mapLoop]
  | cons p ps ih =>
    intro rowData res hn hall
    have hp : (mapRow n p).isOk = true := hall p (by simp)
    cases hq : mapRow n p with
    | error e1 => simp [hq, Except.isOk, Except.toBool] at hp
    | ok vals =>
      simp only [mapLoop, mapRow_eq_Scan n p rowData hn, hq]
      exact ih vals _ (mapRow_ok n p vals hq).2.1 (fun r hr => hall r (by simp [hr]))

/-! ## The row map -/

theorem lookup_filter_ne (m : GoMap) (k k1 : String) (h : k1 ≠ k) :
    List.lookup k1 (m.filter (fun e => e.1 != k)) = List.lookup k1 m := by
  induction m with
  | nil => rfl
  | cons e es ih =>
    obtain ⟨a, b⟩ := e
    by_cases ha : a = k
    · subst ha
      have hne : (k1 == a) = false := by simpa using h
      simp [List.filter, List.lookup, hne, ih]
    · have hne : (a != k) = true := by simpa using ha
      simp only [List.filter, hne, List.lookup, ih]

theorem mapGet_mapSet_same (m : GoMap) (k : String) (v : Value) :
    mapGet (mapSet m k v) k = some v := by
  simp [mapGet, mapSet, List.lookup]

theorem mapGet_mapSet_ne (m : GoMap) (k k1 : String) (v : Value) (h : k1 ≠ k) :
    mapGet (mapSet m k v) k1 = mapGet m k1 := by
  have hne : (k1 == k) = false := by simpa using h
  simp [mapGet, mapSet, List.lookup, hne, lookup_filter_ne m k k1 h]

theorem fillMap_untouched (name : String) :
    ∀ (cols : List String) (vals : List Value) (m : GoMap),
      (∀ (j : Nat) v, cols[j]? = some name → vals[j]? = some v → v = Value.nil) →
      mapGet (fillMap cols vals m) name = mapGet m name := by
  intro cols
  induction cols with
  | nil => intro vals m _; simp [fillMap]
  | cons c cs ih =>
    intro vals m h
    cases vals with
    | nil => simp [fillMap]
    | cons v vs =>
      simp only [fillMap]
      rw [ih vs _ (fun j w hc hv => h (j + 1) w (by simpa using hc) (by simpa using hv))]
      by_cases hv : v = Value.nil
      · simp [hv]
      · simp only [hv, ne_eq, not_false_eq_true, if_true]
        by_cases hc : c = name
        · exact absurd (h 0 v (by simp [hc]) (by simp)) hv
        · exact mapGet_mapSet_ne m c name v (fun hh => hc hh.symm)

theorem fillMap_last (name : String) :
    ∀ (cols : List String) (vals : List Value) (m : GoMap) (j : Nat) (v : Value),
      cols[j]? = some name → vals[j]? = some v → v ≠ Value.nil →
      (∀ (i : Nat) w, j < i → cols[i]? = some name → vals[i]? = some w → w = Value.nil) →
      mapGet (fillMap cols vals m) name = some v := by
  intro cols
  induction cols with
  | nil => intro vals m j v hc; simp at hc
  | cons c cs ih =>
    intro vals m j v hc hv hne hlast
    cases vals with
    | nil => simp at hv
    | cons w ws =>
      simp only [fillMap]
      cases j with
      | zero =>
        simp at hc hv
        subst hc; subst hv
        rw [fillMap_untouched c cs ws _
          (fun i x h1 h2 => hlast (i + 1) x (by omega) (by simpa using h1) (by simpa using h2))]
        simp only [hne, ne_eq, not_false_eq_true, if_true]
        exact mapGet_mapSet_same m c w
      | succ k =>
        exact ih ws _ k v (by simpa using hc) (by simpa using hv) hne
          (fun i x hi h1 h2 =>
            hlast (i + 1) x (by omega) (by simpa using h1) (by simpa using h2))

theorem nodup_getElem?_inj (cols : List String) (h : cols.Nodup) (i j : Nat) (name : String)
    (hi : cols[i]? = some name) (hj : cols[j]? = some name) : i = j := by
  obtain ⟨hi1, hi2⟩ := List.getElem?_eq_some.mp hi
  obtain ⟨hj1, hj2⟩ := List.getElem?_eq_some.mp hj
  exact (List.Nodup.getElem_inj_iff h).mp (hi2.trans hj2.symm)

theorem split_at_index {α : Type} :
    ∀ (l : List α) (k : Nat) (x : α), l[k]? = some x → l = l.take k ++ x :: l.drop (k + 1) := by
  intro l
  induction l with
  | nil => intro k x h; simp at h
  | cons a as ih =>
    intro k x h
    cases k with
    | zero =>
      simp at h
      simp [h]
    | succ j =>
      simp at h
      simpa using ih j x h

/-! ## The switch on the declared type name -/

theorem newTarget_string (t : String) (h : t ∈ stringNames) :
    newTarget t = .nullString ⟨"", false⟩ := by
  simp only [stringNames, List.mem_cons, List.mem_singleton, List.not_mem_nil, or_false] at h
  rcases h with h | h | h | h <;> subst h <;> rfl

theorem newTarget_bool : newTarget "BOOL" = .nullBool ⟨false, false⟩ := rfl

theorem newTarget_int (t : String) (h : t ∈ intNames) :
    newTarget t = .nullInt64 ⟨0, false⟩ := by
  simp only [intNames, List.mem_cons, List.mem_singleton, List.not_mem_nil, or_false] at h
  rcases h with h | h | h <;> subst h <;> rfl

theorem newTarget_float (t : String) (h : t ∈ floatNames) :
    newTarget t = .nullFloat64 ⟨0, false⟩ := by
  simp only [floatNames, List.mem_cons, List.mem_singleton, List.not_mem_nil, or_false] at h
  rcases h with h | h | h <;> subst h <;> rfl

theorem newTarget_time (t : String) (h : t ∈ timeNames) :
    newTarget t = .nullTime ⟨⟨0, 0⟩, false⟩ := by
  simp only [timeNames, List.mem_cons, List.mem_singleton, List.not_mem_nil, or_false] at h
  rcases h with h | h | h <;> subst h <;> rfl

theorem newTarget_other (t : String) (h1 : t ∉ stringNames) (h2 : t ≠ "BOOL")
    (h3 : t ∉ intNames) (h4 : t ∉ floatNames) (h5 : t ∉ timeNames) :
    newTarget t = .iface .nil := by
  simp only [stringNames, intNames, floatNames, timeNames, List.mem_cons, List.mem_singleton,
    List.not_mem_nil, or_false, not_or] at h1 h3 h4 h5
  obtain ⟨a1, a2, a3, a4⟩ := h1
  obtain ⟨b1, b2, b3⟩ := h3
  obtain ⟨c1, c2, c3⟩ := h4
  obtain ⟨d1, d2, d3⟩ := h5
  simp [newTarget, a1, a2, a3, a4, h2, b1, b2, b3, c1, c2, c3, d1, d2, d3]

/-- The entry `Query` stores for a cell of a successful run: the extraction of the
target the cell was decoded into. -/
theorem query_entry (c : Rows) (tys : List String) (rs : Option (List (List Value)))
    (k i : Nat) (row : List Cell) (cell : Cell) (t : String)
    (htys : c.columnTypes = .ok tys)
    (hq : (Recordset.Query ⟨some c⟩).1 = .ret rs none)
    (hrow : c.pending[k]? = some row) (hcell : row[i]? = some cell)
    (ht : tys[i]? = some t) :
    ∃ orow tgt, (sliceList rs)[k]? = some orow ∧ cell.scanInto (newTarget t) = .ok tgt ∧
      orow[i]? = some (extract tgt) := by
  unfold Recordset.Query at hq
  simp only at hq
  cases hc : c.columns with
  | error e => simp [hc] at hq
  | ok cols =>
    simp only [hc, htys] at hq
    obtain ⟨_, news, h1, _, h3⟩ := queryLoop_ok cols.length tys c.err c.pending [] rs hq
    obtain ⟨o, ho1, ho2⟩ := h3 k row hrow
    obtain ⟨_, _, h6⟩ := queryRow_ok cols.length tys row o ho2
    obtain ⟨t1, tgt, hg1, hg2, hg3⟩ := h6 i cell hcell
    have : t1 = t := by
      rw [hg1] at ht
      exact Option.some.inj ht
    subst this
    refine ⟨o, tgt, ?_, hg2, hg3⟩
    simp [h1, sliceList, ho1]

/-- The entry `Query` stores for a column whose type name the switch does not list: a
pointer to the untyped target the cell was decoded into. -/
theorem query_entry_unlisted (c : Rows) (tys : List String) (rs : Option (List (List Value)))
    (k i : Nat) (row : List Cell) (cell : Cell) (t : String)
    (htys : c.columnTypes = .ok tys)
    (hq : (Recordset.Query ⟨some c⟩).1 = .ret rs none)
    (hrow : c.pending[k]? = some row) (hcell : row[i]? = some cell)
    (ht : tys[i]? = some t)
    (h1 : t ∉ stringNames) (h2 : t ≠ "BOOL") (h3 : t ∉ intNames) (h4 : t ∉ floatNames)
    (h5 : t ∉ timeNames) :
    ∃ orow v, (sliceList rs)[k]? = some orow ∧ cell.scanAny = .ok v ∧
      orow[i]? = some (Value.ptr v) := by
  obtain ⟨orow, tgt, g1, g2, g3⟩ := query_entry c tys rs k i row cell t htys hq hrow hcell ht
  rw [newTarget_other t h1 h2 h3 h4 h5] at g2
  cases hs : cell.scanAny with
  | error e => simp [Cell.scanInto, hs, Except.map] at g2
  | ok v =>
    simp [Cell.scanInto, hs, Except.map] at g2
    subst g2
    exact ⟨orow, v, g1, rfl, by simpa [extract] using g3⟩

/-! ## Properties of Query -/

/-- C1, as the code has it: for every row of a successful `Query()` and every column
whose declared type name is one of the recognized names, a cell that decodes as NULL
(the nullable target reports not valid) leaves the untyped nil at that position of the
output row, for all five kinds of target; no typed zero value is stored. -/
theorem query_null_entry_is_nil (c : Rows) (tys : List String)
    (rs : Option (List (List Value))) (k i : Nat) (row : List Cell) (cell : Cell) (t : String)
    (htys : c.columnTypes = .ok tys)
    (hq : (Recordset.Query ⟨some c⟩).1 = .ret rs none)
    (hrow : c.pending[k]? = some row) (hcell : row[i]? = some cell)
    (ht : tys[i]? = some t) :
    ∃ orow entry, (sliceList rs)[k]? = some orow ∧ orow[i]? = some entry ∧
      (t ∈ stringNames → ∀ s, cell.scanString = .ok ⟨s, false⟩ → entry = Value.nil) ∧
      (t = "BOOL" → ∀ b, cell.scanBool = .ok ⟨b, false⟩ → entry = Value.nil) ∧
      (t ∈ intNames → ∀ n, cell.scanInt64 = .ok ⟨n, false⟩ → entry = Value.nil) ∧
      (t ∈ floatNames → ∀ x, cell.scanFloat64 = .ok ⟨x, false⟩ → entry = Value.nil) ∧
      (t ∈ timeNames → ∀ u, cell.scanTime = .ok ⟨u, false⟩ → entry = Value.nil) := by
  obtain ⟨orow, tgt, h1, h2, h3⟩ := query_entry c tys rs k i row cell t htys hq hrow hcell ht
  refine ⟨orow, extract tgt, h1, h3, ?_, ?_, ?_, ?_, ?_⟩
  · intro hm s hs
    rw [newTarget_string t hm] at h2
    simp [Cell.scanInto, hs, Except.map] at h2
    subst h2
    simp [extract]
  · intro hm b hs
    subst hm
    rw [newTarget_bool] at h2
    simp [Cell.scanInto, hs, Except.map] at h2
    subst h2
    simp [extract]
  · intro hm n hs
    rw [newTarget_int t hm] at h2
    simp [Cell.scanInto, hs, Except.map] at h2
    subst h2
    simp [extract]
  · intro hm x hs
    rw [newTarget_float t hm] at h2
    simp [Cell.scanInto, hs, Except.map] at h2
    subst h2
    simp [extract]
  · intro hm u hs
    rw [newTarget_time t hm] at h2
    simp [Cell.scanInto, hs, Except.map] at h2
    subst h2
    simp [extract]

/-- C1 at the three-row scenario: the NULL name of the second row comes out as nil. -/
theorem query_null_entry_is_nil_witness :
    ∃ orow, [[Value.int64 1, Value.str "Alice"], [Value.int64 2, Value.nil],
      [Value.int64 3, Value.str "Carol"]][1]? = some orow ∧ orow[1]? = some Value.nil := by
  obtain ⟨orow, entry, h1, h2, h3, _⟩ :=
    query_null_entry_is_nil people ["BIGINT", "VARCHAR"]
      (some [[Value.int64 1, Value.str "Alice"], [Value.int64 2, Value.nil],
        [Value.int64 3, Value.str "Carol"]]) 1 1 [Cell.ofInt 2, Cell.null] Cell.null "VARCHAR"
      rfl (by decide) rfl rfl rfl
  refine ⟨orow, h1, ?_⟩
  rw [h2, h3 (by decide) "" rfl]

/-- C1 as stated fails: in the three-row scenario the VARCHAR cell of the second row is
NULL, and the entry `Query()` returns for it is nil, not the empty string. -/
theorem query_null_entry_not_zero_value :
    "VARCHAR" ∈ stringNames ∧
    people.columnTypes = .ok ["BIGINT", "VARCHAR"] ∧
    people.pending[1]? = some [Cell.ofInt 2, Cell.null] ∧
    Cell.null.scanString = .ok ⟨"", false⟩ ∧
    (Recordset.Query ⟨some people⟩).1 =
      .ret (some [[.int64 1, .str "Alice"], [.int64 2, .nil], [.int64 3, .str "Carol"]]) none ∧
    ¬ ∃ rs orow, (Recordset.Query ⟨some people⟩).1 = .ret rs none ∧
        (sliceList rs)[1]? = some orow ∧ orow[1]? = some (Value.str "") := by
  have hq : (Recordset.Query ⟨some people⟩).1 =
      .ret (some [[.int64 1, .str "Alice"], [.int64 2, .nil], [.int64 3, .str "Carol"]])
        none := by decide
  refine ⟨by decide, rfl, rfl, rfl, hq, ?_⟩
  rintro ⟨rs, orow, h1, h2, h3⟩
  rw [hq] at h1
  injection h1 with h1 _
  subst h1
  simp [sliceList] at h2
  subst h2
  simp at h3

/-- C5: for every row `k` of a successful `Query()` and every column `i` whose declared
type name is exactly one of the recognized names, a cell that decodes as present (the
nullable target reports valid) gives entry `i` of output row `k` the concrete decoded
value: the string, boolean, 64-bit integer, 64-bit float or timestamp held by the
target, not the target. -/
theorem query_present_entry_is_concrete (c : Rows) (tys : List String)
    (rs : Option (List (List Value))) (k i : Nat) (row : List Cell) (cell : Cell) (t : String)
    (htys : c.columnTypes = .ok tys)
    (hq : (Recordset.Query ⟨some c⟩).1 = .ret rs none)
    (hrow : c.pending[k]? = some row) (hcell : row[i]? = some cell)
    (ht : tys[i]? = some t) :
    ∃ orow entry, (sliceList rs)[k]? = some orow ∧ orow[i]? = some entry ∧
      (t ∈ stringNames → ∀ s, cell.scanString = .ok ⟨s, true⟩ → entry = Value.str s) ∧
      (t = "BOOL" → ∀ b, cell.scanBool = .ok ⟨b, true⟩ → entry = Value.bool b) ∧
      (t ∈ intNames → ∀ n, cell.scanInt64 = .ok ⟨n, true⟩ → entry = Value.int64 n) ∧
      (t ∈ floatNames → ∀ x, cell.scanFloat64 = .ok ⟨x, true⟩ → entry = Value.float64 x) ∧
      (t ∈ timeNames → ∀ u, cell.scanTime = .ok ⟨u, true⟩ → entry = Value.time u) := by
  obtain ⟨orow, tgt, h1, h2, h3⟩ := query_entry c tys rs k i row cell t htys hq hrow hcell ht
  refine ⟨orow, extract tgt, h1, h3, ?_, ?_, ?_, ?_, ?_⟩
  · intro hm s hs
    rw [newTarget_string t hm] at h2
    simp [Cell.scanInto, hs, Except.map] at h2
    subst h2
    simp [extract]
  · intro hm b hs
    subst hm
    rw [newTarget_bool] at h2
    simp [Cell.scanInto, hs, Except.map] at h2
    subst h2
    simp [extract]
  · intro hm n hs
    rw [newTarget_int t hm] at h2
    simp [Cell.scanInto, hs, Except.map] at h2
    subst h2
    simp [extract]
  · intro hm x hs
    rw [newTarget_float t hm] at h2
    simp [Cell.scanInto, hs, Except.map] at h2
    subst h2
    simp [extract]
  · intro hm u hs
    rw [newTarget_time t hm] at h2
    simp [Cell.scanInto, hs, Except.map] at h2
    subst h2
    simp [extract]

/-- C5 at the three-row scenario: the id of the third row comes out as the integer 3. -/
theorem query_present_entry_is_concrete_witness :
    ∃ orow, [[Value.int64 1, Value.str "Alice"], [Value.int64 2, Value.nil],
      [Value.int64 3, Value.str "Carol"]][2]? = some orow ∧
      orow[0]? = some (Value.int64 3) := by
  obtain ⟨orow, entry, h1, h2, _, _, h3, _⟩ :=
    query_present_entry_is_concrete people ["BIGINT", "VARCHAR"]
      (some [[Value.int64 1, Value.str "Alice"], [Value.int64 2, Value.nil],
        [Value.int64 3, Value.str "Carol"]]) 2 0 [Cell.ofInt 3, Cell.ofString "Carol"]
      (Cell.ofInt 3) "BIGINT" rfl (by decide) rfl rfl rfl
  refine ⟨orow, h1, ?_⟩
  rw [h2, h3 (by decide) 3 rfl]

/-- C2 fails on the code: for a column of the unlisted type name JSONB whose cell decodes
to the string "abc", the entry `Query()` returns is a pointer to the untyped target, not
the decoded string the target contains. -/
theorem query_unrecognized_entry_is_pointer :
    newTarget "JSONB" = .iface .nil ∧
    (Cell.ofString "abc").scanAny = .ok (Value.str "abc") ∧
    (Recordset.Query ⟨some documents⟩).1 = .ret (some [[Value.ptr (Value.str "abc")]]) none ∧
    (Recordset.Query ⟨some documents⟩).1 ≠ .ret (some [[Value.str "abc"]]) none :=
  ⟨by decide, rfl, by decide, by decide⟩

/-- C6: when `Query()` succeeds on a cursor with `m` column names that yields `n` rows,
the result has exactly `n` rows and each of them has exactly `m` entries. -/
theorem query_shape (c : Rows) (cols : List String) (rs : Option (List (List Value)))
    (hcols : c.columns = .ok cols)
    (hq : (Recordset.Query ⟨some c⟩).1 = .ret rs none) :
    sliceLen rs = c.pending.length ∧ ∀ orow ∈ sliceList rs, orow.length = cols.length := by
  unfold Recordset.Query at hq
  simp only [hcols] at hq
  cases ht : c.columnTypes with
  | error e => simp [ht] at hq
  | ok tys =>
    simp only [ht] at hq
    obtain ⟨_, news, h1, h2, h3⟩ := queryLoop_ok cols.length tys c.err c.pending [] rs hq
    subst h1
    refine ⟨by simp [sliceLen, h2], ?_⟩
    intro orow hmem
    simp only [sliceList, List.nil_append] at hmem
    obtain ⟨k, hk, hget⟩ := List.mem_iff_getElem.mp hmem
    have hk2 : k < c.pending.length := by omega
    obtain ⟨o, ho1, ho2⟩ := h3 k c.pending[k] (List.getElem?_eq_getElem hk2)
    have : o = orow := by
      rw [List.getElem?_eq_getElem hk, hget] at ho1
      exact (Option.some.inj ho1).symm
    subst this
    exact (queryRow_ok cols.length tys c.pending[k] o ho2).1

/-- C6 at the three-row scenario: three rows of two entries. -/
theorem query_shape_witness :
    sliceLen (some [[Value.int64 1, Value.str "Alice"], [Value.int64 2, Value.nil],
      [Value.int64 3, Value.str "Carol"]]) = people.pending.length ∧
    ∀ orow ∈ sliceList (some [[Value.int64 1, Value.str "Alice"], [Value.int64 2, Value.nil],
      [Value.int64 3, Value.str "Carol"]]), orow.length = ["id", "name"].length :=
  query_shape people ["id", "name"] _ rfl (by decide)

/-- C10: when the cursor reports as many column types as column names, `Query()` never
indexes the column-type list out of range (the lookup `colTypes[i]` is its only indexing
and never panics); with fewer column types than column names and at least one row the
lookup does go out of range. -/
theorem query_colTypes_in_bounds (c : Rows) (cols tys : List String)
    (hcols : c.columns = .ok cols) (htys : c.columnTypes = .ok tys) :
    (tys.length = cols.length → ∀ msg, (Recordset.Query ⟨some c⟩).1 ≠ .panic msg) ∧
    (tys.length < cols.length → c.pending ≠ [] →
      (Recordset.Query ⟨some c⟩).1 = .panic "runtime error: index out of range") := by
  unfold Recordset.Query
  simp only [hcols, htys]
  constructor
  · intro hlen msg
    exact queryLoop_no_panic cols.length tys c.err (by omega) c.pending [] msg
  · intro hlt hne
    cases hp : c.pending with
    | nil => exact absurd hp hne
    | cons row rest =>
      simp [queryLoop, queryRow_panic cols.length tys row hlt]

/-- C10 at the three-row scenario (two names, two types) and at a cursor with two names
and one type. -/
theorem query_colTypes_in_bounds_witness :
    (Recordset.Query ⟨some people⟩).1 ≠ .panic "runtime error: index out of range" ∧
    (Recordset.Query ⟨some ragged⟩).1 = .panic "runtime error: index out of range" :=
  ⟨(query_colTypes_in_bounds people ["id", "name"] ["BIGINT", "VARCHAR"] rfl rfl).1 rfl _,
    (query_colTypes_in_bounds ragged ["id", "name"] ["BIGINT"] rfl rfl).2 (by decide)
      (by simp [ragged])⟩

/-- C9: on a Recordset whose cursor is nil, `Query()` returns nil rows and the error
"rows is nil", and it has made no call on the cursor: no metadata call, no row advance,
no decode. -/
theorem query_nil_cursor (r : Recordset) (h : r.Rows = none) :
    (Recordset.Query r).1 = .ret none (some "rows is nil") ∧ (Recordset.Query r).2 = [] := by
  unfold Recordset.Query
  simp [h]

/-- C9 at the Recordset built from the nil cursor. -/
theorem query_nil_cursor_witness :
    (Recordset.Query (NewRecordset none)).1 = .ret none (some "rows is nil") ∧
    (Recordset.Query (NewRecordset none)).2 = [] :=
  query_nil_cursor (NewRecordset none) rfl

/-! ## Properties of both operations -/

/-- C8: on a non-nil cursor that yields no row, whose metadata calls succeed and which
reports no deferred error, `Query()` and `QueryAsMap()` each return a nil error and a
result of length zero. -/
theorem zero_rows_empty_result (c : Rows) (cols tys : List String)
    (hcols : c.columns = .ok cols) (htys : c.columnTypes = .ok tys)
    (hrows : c.pending = []) (herr : c.err = none) :
    (∃ rs, (Recordset.Query ⟨some c⟩).1 = .ret rs none ∧ sliceLen rs = 0) ∧
    (∃ rs, (Recordset.QueryAsMap ⟨some c⟩).1 = .ret rs none ∧ sliceLen rs = 0) := by
  constructor
  · refine ⟨some [], ?_, rfl⟩
    simp [Recordset.Query, hcols, htys, hrows, herr, queryLoop]
  · refine ⟨none, ?_, rfl⟩
    simp [Recordset.QueryAsMap, hcols, hrows, herr, mapLoop]

/-- C8 at a cursor with two columns and no row. -/
theorem zero_rows_empty_result_witness :
    (∃ rs, (Recordset.Query ⟨some empty⟩).1 = .ret rs none ∧ sliceLen rs = 0) ∧
    (∃ rs, (Recordset.QueryAsMap ⟨some empty⟩).1 = .ret rs none ∧ sliceLen rs = 0) :=
  zero_rows_empty_result empty ["id", "name"] ["BIGINT", "VARCHAR"] rfl rfl rfl rfl

/-- C3: for every cursor and every `N ≥ 1`, if in a run of `Query()` the decode of row `N`
fails after rows `1..N-1` were decoded, or the exhausted cursor reports a deferred error,
then `Query()` returns a non-nil error with nil rows; and likewise for `QueryAsMap()` with
its own decode. None of the rows accumulated before the failure is returned. -/
theorem error_returns_no_rows (c : Rows) (N : Nat) (_hN : 1 ≤ N) :
    ((c.queryScanFailsAt N ∨ c.queryDeferredErr) →
      ∃ msg, (Recordset.Query ⟨some c⟩).1 = .ret none (some msg)) ∧
    ((c.mapScanFailsAt N ∨ c.mapDeferredErr) →
      ∃ msg, (Recordset.QueryAsMap ⟨some c⟩).1 = .ret none (some msg)) := by
  constructor
  · rintro (⟨cols, tys, row, e, hc, ht, hpre, hrow, hfail⟩ | ⟨cols, tys, e, hc, ht, hall, he⟩)
    · unfold Recordset.Query
      simp only [hc, ht]
      rw [split_at_index c.pending (N - 1) row hrow]
      exact ⟨_, queryLoop_scanError cols.length tys c.err _ row _ e [] hpre hfail⟩
    · unfold Recordset.Query
      simp only [hc, ht, he]
      exact ⟨_, queryLoop_err cols.length tys e c.pending [] hall⟩
  · rintro (⟨cols, row, e, hc, hpre, hrow, hfail⟩ | ⟨cols, e, hc, hall, he⟩)
    · unfold Recordset.QueryAsMap
      simp only [hc]
      rw [split_at_index c.pending (N - 1) row hrow]
      exact ⟨_, mapLoop_scanError cols c.err cols.length _ row _ e _ none (by simp) hpre hfail⟩
    · unfold Recordset.QueryAsMap
      simp only [hc, he]
      exact ⟨_, mapLoop_err cols e cols.length c.pending _ none (by simp) hall⟩

/-- C3 at a cursor whose second row holds text in a BIGINT column and whose connection
breaks at the end: `Query()` fails at row 2, `QueryAsMap()` at the deferred error, and
neither returns the rows before. -/
theorem error_returns_no_rows_witness :
    (∃ msg, (Recordset.Query ⟨some broken⟩).1 = .ret none (some msg)) ∧
    (∃ msg, (Recordset.QueryAsMap ⟨some broken⟩).1 = .ret none (some msg)) :=
  ⟨(error_returns_no_rows broken 2 (by decide)).1
      (Or.inl ⟨["id"], ["BIGINT"], [Cell.ofString "x"], _, rfl, rfl, by decide, rfl, rfl⟩),
    (error_returns_no_rows broken 2 (by decide)).2
      (Or.inr ⟨["id"], "connection reset", rfl, by decide, rfl⟩)⟩

/-! ## Properties of QueryAsMap -/

/-- The map `QueryAsMap` builds for a row of a successful run, and the values it was
built from. -/
theorem map_row_built (c : Rows) (cols : List String) (rs : Option (List GoMap))
    (k : Nat) (row : List Cell)
    (hcols : c.columns = .ok cols)
    (hq : (Recordset.QueryAsMap ⟨some c⟩).1 = .ret rs none)
    (hrow : c.pending[k]? = some row) :
    ∃ vals, (sliceList rs)[k]? = some (fillMap cols vals []) ∧
      row.length = cols.length ∧ vals.length = cols.length ∧
      ∀ (i : Nat) cell, row[i]? = some cell →
        ∃ v, cell.scanAny = .ok v ∧ vals[i]? = some v := by
  unfold Recordset.QueryAsMap at hq
  simp only [hcols] at hq
  obtain ⟨_, news, h1, _, h3⟩ :=
    mapLoop_ok cols c.err cols.length c.pending _ none rs (by simp) hq
  obtain ⟨vals, hv1, hv2⟩ := h3 k row hrow
  obtain ⟨h4, h5, h6⟩ := mapRow_ok cols.length row vals hv1
  refine ⟨vals, ?_, h4, h5, h6⟩
  rw [h1]
  simpa [sliceList] using hv2

/-- C4, as the code has it: in the map `QueryAsMap()` builds for a row, the value stored
under a column name is the decoded value of the last column position bearing that name
whose decoded value is not nil; later positions of that name whose value is nil do not
overwrite it. -/
theorem map_last_present_wins (c : Rows) (cols : List String) (rs : Option (List GoMap))
    (k j : Nat) (row : List Cell) (name : String) (cell : Cell) (v : Value)
    (hcols : c.columns = .ok cols)
    (hq : (Recordset.QueryAsMap ⟨some c⟩).1 = .ret rs none)
    (hrow : c.pending[k]? = some row)
    (hname : cols[j]? = some name) (hcell : row[j]? = some cell)
    (hv : cell.scanAny = .ok v) (hne : v ≠ Value.nil)
    (hlast : ∀ (i : Nat) ci, j < i → cols[i]? = some name → row[i]? = some ci →
      ci.scanAny = .ok Value.nil) :
    ∃ m, (sliceList rs)[k]? = some m ∧ mapGet m name = some v := by
  obtain ⟨vals, h1, h2, h3, h4⟩ := map_row_built c cols rs k row hcols hq hrow
  refine ⟨_, h1, ?_⟩
  obtain ⟨v1, hv1, hv2⟩ := h4 j cell hcell
  have hvv : v1 = v := by
    rw [hv] at hv1
    exact (Except.ok.inj hv1).symm
  subst hvv
  refine fillMap_last name cols vals [] j v1 hname hv2 hne ?_
  intro i w hi hc hw
  have hi2 : i < row.length := by
    have := (List.getElem?_eq_some.mp hw).1
    omega
  obtain ⟨w1, hw1, hw2⟩ := h4 i row[i] (List.getElem?_eq_getElem hi2)
  rw [hlast i row[i] hi hc (List.getElem?_eq_getElem hi2)] at hw1
  rw [hw] at hw2
  rw [Option.some.inj hw2, ← Except.ok.inj hw1]

/-- C4 at `SELECT 1 AS a, NULL AS a`: the value under "a" is the 1 of the first column. -/
theorem map_last_present_wins_witness :
    ∃ m, (sliceList (some [[("a", Value.int64 1)]]))[0]? = some m ∧
      mapGet m "a" = some (Value.int64 1) :=
  map_last_present_wins twice ["a", "a"] (some [[("a", Value.int64 1)]]) 0 0
    [Cell.ofInt 1, Cell.null] "a" (Cell.ofInt 1) (Value.int64 1) rfl (by decide) rfl rfl rfl rfl
    (by decide)
    (by
      intro i ci hi _ hr
      match i, hi, hr with
      | 1, _, hr =>
        simp at hr
        subst hr
        rfl
      | i + 2, _, hr => simp at hr)

/-- C4 as stated fails: at `SELECT 1 AS a, NULL AS a` the last column named "a" is
position 1, its decoded value is nil, and the value stored under "a" is the 1 of
position 0. -/
theorem map_last_position_does_not_win :
    twice.columns = .ok ["a", "a"] ∧
    twice.pending[0]? = some [Cell.ofInt 1, Cell.null] ∧
    Cell.null.scanAny = .ok Value.nil ∧
    (Recordset.QueryAsMap ⟨some twice⟩).1 = .ret (some [[("a", Value.int64 1)]]) none ∧
    ¬ ∃ rs m, (Recordset.QueryAsMap ⟨some twice⟩).1 = .ret rs none ∧
        (sliceList rs)[0]? = some m ∧
        (mapGet m "a" = some Value.nil ∨ mapGet m "a" = none) := by
  have hq : (Recordset.QueryAsMap ⟨some twice⟩).1 =
      .ret (some [[("a", Value.int64 1)]]) none := by decide
  refine ⟨rfl, rfl, rfl, hq, ?_⟩
  rintro ⟨rs, m, h1, h2, h3⟩
  rw [hq] at h1
  injection h1 with h1 _
  subst h1
  simp [sliceList] at h2
  subst h2
  revert h3
  decide

/-- C7: when the column names are pairwise distinct and `QueryAsMap()` succeeds, the map
of row `k` contains the key `columns[i]` exactly when the decoded value of cell `(k, i)`
is not nil, and it then maps the key to exactly that value, whatever the rows before
held in the shared targets. -/
theorem map_entry_iff_present (c : Rows) (cols : List String) (rs : Option (List GoMap))
    (k i : Nat) (row : List Cell) (name : String)
    (hcols : c.columns = .ok cols) (hnodup : cols.Nodup)
    (hq : (Recordset.QueryAsMap ⟨some c⟩).1 = .ret rs none)
    (hrow : c.pending[k]? = some row) (hname : cols[i]? = some name) :
    ∃ cell v m, row[i]? = some cell ∧ cell.scanAny = .ok v ∧
      (sliceList rs)[k]? = some m ∧
      ((mapGet m name).isSome = true ↔ v ≠ Value.nil) ∧
      (v ≠ Value.nil → mapGet m name = some v) := by
  obtain ⟨vals, h1, h2, h3, h4⟩ := map_row_built c cols rs k row hcols hq hrow
  have hi : i < row.length := by
    have := (List.getElem?_eq_some.mp hname).1
    omega
  obtain ⟨v, hv1, hv2⟩ := h4 i row[i] (List.getElem?_eq_getElem hi)
  refine ⟨row[i], v, _, List.getElem?_eq_getElem hi, hv1, h1, ?_⟩
  by_cases hv : v = Value.nil
  · have hun : mapGet (fillMap cols vals []) name = mapGet [] name := by
      refine fillMap_untouched name cols vals [] ?_
      intro j w hc hw
      have := nodup_getElem?_inj cols hnodup j i name hc hname
      subst this
      rw [hv2] at hw
      rw [← Option.some.inj hw, hv]
    rw [hun]
    simp [hv, mapGet, List.lookup]
  · have hl : mapGet (fillMap cols vals []) name = some v := by
      refine fillMap_last name cols vals [] i v hname hv2 hv ?_
      intro j w hj hc _
      have := nodup_getElem?_inj cols hnodup j i name hc hname
      omega
    rw [hl]
    simp [hv]

/-- C7 at the three-row scenario: the map of the second row has no key "name", its
name being NULL, although the first row stored "Alice" in the same target. -/
theorem map_entry_iff_present_witness :
    ∃ cell v m, [Cell.ofInt 2, Cell.null][1]? = some cell ∧ cell.scanAny = .ok v ∧
      (sliceList (some [[("name", Value.str "Alice"), ("id", Value.int64 1)],
        [("id", Value.int64 2)],
        [("name", Value.str "Carol"), ("id", Value.int64 3)]]))[1]? = some m ∧
      ((mapGet m "name").isSome = true ↔ v ≠ Value.nil) ∧
      (v ≠ Value.nil → mapGet m "name" = some v) :=
  map_entry_iff_present people ["id", "name"]
    (some [[("name", Value.str "Alice"), ("id", Value.int64 1)], [("id", Value.int64 2)],
      [("name", Value.str "Carol"), ("id", Value.int64 3)]])
    1 1 [Cell.ofInt 2, Cell.null] "name" rfl (by decide) (by decide) rfl rfl

end GoQuery
